import Mathlib

/-!
# Verification of the CoC dice plugin command core (`src/plugin.py`)

Shallow embedding of the parsing / attribute-resolution engine of the
plugin.  Character records are association lists from string keys to
values; a value is either an integer (attributes, skills, the reserved
total) or a string (the reserved nickname key `昵称`), mirroring the
heterogeneous Python dict.  Randomness is modelled by an oracle
`g : Nat → Nat` together with a running index: `random.randint(1, face)`
at index `i` is embedded as `1 + g i % face`, so every outcome lies in
`[1, face]` for any oracle, and functions that roll dice thread the
index.  Python exceptions are modelled by `Except`.
-/

namespace CocDice

/-- A value stored in a character record: the Python dict holds both
integers (attributes/skills and the reserved total) and strings (the
reserved nickname). -/
inductive Val where
  | vInt (n : Int)
  | vStr (s : String)
deriving DecidableEq, Repr

/-- A character record: Python dict `str -> int|str`, embedded as an
association list without duplicate keys (all operations below preserve
key uniqueness). -/
abbrev Record := List (String × Val)

/-- Python `dict[k]` / `dict.get(k)`: first (unique) binding of `k`. -/
def rlookup (r : List (String × α)) (k : String) : Option α :=
  List.lookup k r

/-- Python `dict[k] = v`: overwrite in place if present, else append. -/
def rset (r : List (String × α)) (k : String) (v : α) : List (String × α) :=
  match r with
  | [] => [(k, v)]
  | (k', v') :: t => if k' = k then (k, v) :: t else (k', v') :: rset t k v

/-- Python `del dict[k]`. -/
def rdel (r : List (String × α)) (k : String) : List (String × α) :=
  r.filter (fun p => p.1 ≠ k)

/-- `record.get(k, 0)` used where the code sums/compares attribute
values: the stored integer, `0` when the key is absent.  (On the keys
this is applied to, the program only ever stores integers; a string
value would make the Python arithmetic raise.) -/
def getI (r : Record) (k : String) : Int :=
  match rlookup r k with
  | some (Val.vInt n) => n
  | _ => 0

/-- Python `str(value)` for a dict value interpolated into an f-string. -/
def valToString : Val → String
  | Val.vInt n => toString n
  | Val.vStr s => s

/-- The keys of a record, in storage order. -/
def rkeys (r : List (String × α)) : List String := r.map (·.1)

/-! ## Python string primitives -/

/-- Python `\s` / `str.strip()` whitespace class (ASCII fragment). -/
def isPySpace (c : Char) : Bool := c = ' ' ∨ c = '\t' ∨ c = '\n' ∨ c = '\r'

/-- Python `str.strip()` on a character list. -/
def pythonStrip (l : List Char) : List Char :=
  (((l.dropWhile isPySpace).reverse.dropWhile isPySpace)).reverse

/-- Python `str.strip()`. -/
def pyStrip (s : String) : String := ⟨pythonStrip s.data⟩

/-- Python `str.isdigit()` (ASCII fragment): nonempty and all digits. -/
def pyIsDigit (s : String) : Bool := !s.data.isEmpty && s.data.all Char.isDigit

/-- Numeric value of a digit run (`int` on a string of digits). -/
def digitsToNat (l : List Char) : Nat :=
  l.foldl (fun a c => 10 * a + (c.toNat - '0'.toNat)) 0

/-- Python `int(s)` on the strings reachable here (no interior
whitespace): an optional single sign followed by a nonempty digit run;
anything else raises `ValueError` (`none`). -/
def pyInt (s : String) : Option Int :=
  match s.data with
  | [] => none
  | '+' :: ds => if ds ≠ [] ∧ ds.all Char.isDigit then some (digitsToNat ds) else none
  | '-' :: ds => if ds ≠ [] ∧ ds.all Char.isDigit then some (-(digitsToNat ds : Int)) else none
  | ds => if ds.all Char.isDigit then some (digitsToNat ds) else none

/-- ASCII lowercase of one character (other characters are fixed). -/
def pyLowerChar (c : Char) : Char :=
  if 65 ≤ c.toNat ∧ c.toNat ≤ 90 then Char.ofNat (c.toNat + 32) else c

/-- Python `str.lower()` (ASCII letters; CJK and emoji are fixed). -/
def pyLower (s : String) : String := ⟨s.data.map pyLowerChar⟩

/-- Python `str.lstrip('-')`. -/
def pyLstripMinus (s : String) : String := ⟨s.data.dropWhile (· = '-')⟩

/-! ## Static attribute tables (`BASE_ATTR_MAP` and friends) -/

/-- `BASE_ATTR_MAP`: canonical name ↦ (short code, display label). -/
def BASE_ATTR_MAP : List (String × String × String) :=
  [("生命", "HP", "❤️生命(HP)"),
   ("魔力", "MP", "🧪魔力(MP)"),
   ("理智", "SAN", "🌀理智(SAN)"),
   ("力量", "STR", "💪力量(STR)"),
   ("体质", "CON", "🛡️体质(CON)"),
   ("体型", "SIZ", "📏体型(SIZ)"),
   ("敏捷", "DEX", "🏃敏捷(DEX)"),
   ("外貌", "APP", "✨外貌(APP)"),
   ("智力", "INT", "🧠智力(INT)"),
   ("意志", "POW", "🔮意志(POW)"),
   ("教育", "EDU", "📚教育(EDU)"),
   ("幸运", "LUCK", "🍀幸运(LUCK)"),
   ("伤害加值", "DB", "💥伤害加值(DB)"),
   ("闪避", "DODGE", "🤸闪避(DODGE)"),
   ("移动力", "MOV", "⚡移动力(MOV)")]

/-- `ATTR_ALIAS_MAP`. -/
def ATTR_ALIAS_MAP : List (String × String) :=
  [("str", "力量"), ("💪力量(str)", "力量"),
   ("con", "体质"), ("🛡️体质(con)", "体质"),
   ("siz", "体型"), ("📏体型(siz)", "体型"),
   ("dex", "敏捷"), ("🏃敏捷(dex)", "敏捷"),
   ("app", "外貌"), ("✨外貌(app)", "外貌"),
   ("int", "智力"), ("灵感", "智力"), ("🧠智力(int)", "智力"),
   ("pow", "意志"), ("🔮意志(pow)", "意志"),
   ("edu", "教育"), ("📚教育(edu)", "教育"),
   ("luck", "幸运"), ("运气", "幸运"), ("🍀幸运(luck)", "幸运"),
   ("hp", "生命"), ("体力", "生命"), ("❤️生命(hp)", "生命"),
   ("mp", "魔力"), ("魔法", "魔力"), ("🧪魔力(mp)", "魔力"),
   ("san", "理智"), ("理智值", "理智"), ("san值", "理智"), ("🌀理智(san)", "理智"),
   ("db", "伤害加值"), ("💥伤害加值(db)", "伤害加值"),
   ("dodge", "闪避"), ("🤸闪避(dodge)", "闪避"),
   ("mov", "移动力"), ("⚡移动力(mov)", "移动力"),
   ("计算机使用", "计算机"), ("电脑", "计算机"),
   ("信誉", "信用"), ("信用评级", "信用"),
   ("克苏鲁神话", "克苏鲁"), ("cm", "克苏鲁"),
   ("汽车驾驶", "驾驶"), ("汽车", "驾驶"),
   ("图书馆使用", "图书馆"),
   ("撬锁", "开锁"), ("锁匠", "开锁"),
   ("自然学", "博物学"),
   ("重型机械", "重型操作"), ("操作重型机械", "重型操作"), ("重型", "重型操作")]

/-- `CORE_BASE_ATTR_SHORTS`: the 9 core attributes summed into the total. -/
def CORE_BASE_ATTR_SHORTS : List String :=
  ["STR", "CON", "SIZ", "DEX", "APP", "INT", "POW", "EDU", "LUCK"]

/-- `AUTO_CALC_ATTR_SHORTS`. -/
def AUTO_CALC_ATTR_SHORTS : List String := ["HP", "MP", "SAN", "DB", "DODGE", "MOV"]

/-- `BASE_ATTR_NAMES = set(BASE_ATTR_MAP.keys())`. -/
def BASE_ATTR_NAMES : List String := BASE_ATTR_MAP.map (·.1)

/-- `BASE_ATTR_TO_SHORT[name]`. -/
def BASE_ATTR_TO_SHORT (name : String) : Option String :=
  (BASE_ATTR_MAP.lookup name).map (·.1)

/-- `SHORT_TO_BASE_ATTR`: short codes back to canonical names. -/
def SHORT_TO_BASE_ATTR : List (String × String) :=
  BASE_ATTR_MAP.map (fun p => (p.2.1, p.1))

/-- `SHORT_TO_BASE_ATTR.keys()` as a membership test. -/
def isShortCode (k : String) : Bool := (SHORT_TO_BASE_ATTR.lookup k).isSome

/-- Display label of a canonical base attribute name (`BASE_ATTR_MAP[name][1]`). -/
def displayLabelOf (name : String) : String :=
  ((BASE_ATTR_MAP.lookup name).map (·.2)).getD name

/-- The reserved keys excluded from the custom-skill space
(`set(SHORT_TO_BASE_ATTR.keys()) | {"基础总属性", "总属性", "昵称"}`). -/
def isExcludedKey (k : String) : Bool :=
  isShortCode k || k = "基础总属性" || k = "总属性" || k = "昵称"

/-! ## Dice engine -/

/-- Error raised by `parse_dice_expression` (`ValueError` messages). -/
inductive DiceErr where
  | invalidExpr
  | countOutOfRange
  | facesOutOfRange
deriving DecidableEq, Repr

/-- The regex `^(\d*)d(\d+)([+-]\d+)?$` (case-insensitive, so `d` or
`D`), returning the three capture groups on a match. -/
def matchDiceRegex (cs : List Char) :
    Option (List Char × List Char × Option (Char × List Char)) :=
  let g1 := cs.takeWhile Char.isDigit
  match cs.dropWhile Char.isDigit with
  | [] => none
  | c :: rest2 =>
    if c = 'd' ∨ c = 'D' then
      let g2 := rest2.takeWhile Char.isDigit
      if g2 = [] then none
      else
        match rest2.dropWhile Char.isDigit with
        | [] => some (g1, g2, none)
        | s :: rest4 =>
          if s = '+' ∨ s = '-' then
            let g3 := rest4.takeWhile Char.isDigit
            if g3 = [] ∨ rest4.dropWhile Char.isDigit ≠ [] then none
            else some (g1, g2, some (s, g3))
          else none
    else none

/-- `parse_dice_expression(expr)`: strip, match the regex, default the
count to 1, then range-check count (1–100) and faces (1–1000). -/
def parse_dice_expression (expr : String) : Except DiceErr (Nat × Nat × Int) :=
  match matchDiceRegex (pythonStrip expr.data) with
  | none => .error .invalidExpr
  | some (g1, g2, g3) =>
    let count : Nat := if g1 = [] then 1 else digitsToNat g1
    let face : Nat := digitsToNat g2
    let modifier : Int :=
      match g3 with
      | none => 0
      | some (s, ds) => if s = '-' then -(digitsToNat ds : Int) else (digitsToNat ds : Int)
    if count = 0 ∨ count > 100 then .error .countOutOfRange
    else if face = 0 ∨ face > 1000 then .error .facesOutOfRange
    else .ok (count, face, modifier)

/-- `random.randint(1, face)` drawn at oracle index `i`. -/
def randint1 (g : Nat → Nat) (i : Nat) (face : Nat) : Nat := 1 + g i % face

/-- `roll_dice(count, face, modifier)`: the individual rolls (drawn at
indices `i, i+1, …`) and `sum(rolls) + modifier`. -/
def roll_dice (g : Nat → Nat) (i : Nat) (count face : Nat) (modifier : Int) :
    List Nat × Int :=
  let rolls := (List.range count).map (fun j => randint1 g (i + j) face)
  (rolls, (rolls.foldl (· + ·) 0 : Nat) + modifier)

/-- The regex `^(\d+)d(\d+)$` used by `parse_damage_bonus_value`
(case-sensitive, no modifier). -/
def matchDbDice (cs : List Char) : Option (List Char × List Char) :=
  let g1 := cs.takeWhile Char.isDigit
  if g1 = [] then none
  else
    match cs.dropWhile Char.isDigit with
    | 'd' :: rest =>
      let g2 := rest.takeWhile Char.isDigit
      if g2 ≠ [] ∧ rest.dropWhile Char.isDigit = [] then some (g1, g2) else none
    | _ => none

/-- `parse_damage_bonus_value(damage_bonus_str)`: a signed integer
literal is returned as-is; a `NdM` dice expression is rolled; anything
else resolves to `0`.  The integer branch sits outside the `try`, so a
string like `"--5"` (which passes the `lstrip('-').isdigit()` test but
makes `int()` raise) propagates an exception (`.error`). -/
def parse_damage_bonus_value (damage_bonus_str : String) (g : Nat → Nat) (i : Nat) :
    Except Unit (Int × Nat) :=
  if pyIsDigit (pyLstripMinus damage_bonus_str) then
    match pyInt damage_bonus_str with
    | some v => .ok (v, i)
    | none => .error ()
  else
    match matchDbDice damage_bonus_str.data with
    | some (cs, ds) =>
      let count := digitsToNat cs
      let face := digitsToNat ds
      if face = 0 then .ok (0, i) -- randint(1, 0) raises inside the try: swallowed, falls to 0
      else .ok ((roll_dice g i count face 0).2, i + count)
    | none => .ok (0, i)

/-- `parse_san_deduct_value(expr)`: signed integer or dice expression,
floored at 1; a dice-parse failure falls back to 1 inside the `try`.
The integer branch sits outside the `try`, so `"--5"`-shaped input
makes `int()` raise (`.error`). -/
def parse_san_deduct_value (expr : String) (g : Nat → Nat) (i : Nat) :
    Except Unit (Int × Nat) :=
  if pyIsDigit (pyLstripMinus expr) then
    match pyInt expr with
    | some v => .ok (max v 1, i)
    | none => .error ()
  else
    match parse_dice_expression expr with
    | .ok (count, face, modifier) =>
      let (_, total) := roll_dice g i count face modifier
      .ok (max total 1, i + count)
    | .error _ => .ok (1, i)

/-! ## Initial attribute computation -/

/-- `calculate_damage_bonus(str_value, siz_value)`. -/
def calculate_damage_bonus (str_value siz_value : Int) (g : Nat → Nat) (i : Nat) :
    Except Unit (Int × Nat) :=
  let total := str_value + siz_value
  let damage_bonus_expr :=
    if 2 ≤ total ∧ total ≤ 64 then "-2"
    else if 65 ≤ total ∧ total ≤ 84 then "-1"
    else if 85 ≤ total ∧ total ≤ 124 then "0"
    else if 125 ≤ total ∧ total ≤ 164 then "1d4"
    else if 165 ≤ total ∧ total ≤ 204 then "1d6"
    else if total ≥ 205 then "2d6"
    else "-2"
  parse_damage_bonus_value damage_bonus_expr g i

/-- `calculate_dodge(dex_value)`: Python `//` is floor division. -/
def calculate_dodge (dex_value : Int) : Int := Int.fdiv dex_value 2

/-- `calculate_movement(dex_value, str_value, siz_value)`. -/
def calculate_movement (dex_value str_value siz_value : Int) : Int :=
  if dex_value < siz_value ∧ str_value < siz_value then 7
  else if dex_value > siz_value ∧ str_value > siz_value then 9
  else 8

/-- `sum([rec.get(short, 0) for short in CORE_BASE_ATTR_SHORTS])`: the
recomputation of the core total, repeated at every mutation site. -/
def sumCore (r : Record) : Int :=
  (CORE_BASE_ATTR_SHORTS.map (getI r)).foldl (· + ·) 0

/-- `generate_character_attributes(nickname)`: nickname, fixed
HP/MP/SAN, `3d6×5` for STR/CON/DEX/APP/POW/LUCK, `(2d6+6)×5` for
SIZ/INT/EDU, derived DB/DODGE/MOV from the freshly rolled values, and
finally the stored core total. -/
def generate_character_attributes (nickname : String) (g : Nat → Nat) (i : Nat) :
    Except Unit (Record × Nat) :=
  let r0 : Record := [("昵称", Val.vStr nickname), ("HP", Val.vInt 12),
                      ("MP", Val.vInt 10), ("SAN", Val.vInt 50)]
  let normal_attrs := ["STR", "CON", "DEX", "APP", "POW", "LUCK"]
  let p1 := normal_attrs.foldl (fun (p : Record × Nat) short =>
      (rset p.1 short (Val.vInt ((roll_dice g p.2 3 6 0).2 * 5)), p.2 + 3)) (r0, i)
  let special_attrs := ["SIZ", "INT", "EDU"]
  let p2 := special_attrs.foldl (fun (p : Record × Nat) short =>
      (rset p.1 short (Val.vInt (((roll_dice g p.2 2 6 0).2 + 6) * 5)), p.2 + 2)) p1
  let str_val := getI p2.1 "STR"
  let siz_val := getI p2.1 "SIZ"
  let dex_val := getI p2.1 "DEX"
  match calculate_damage_bonus str_val siz_val g p2.2 with
  | .error e => .error e
  | .ok (db, i3) =>
    let r3 := rset p2.1 "DB" (Val.vInt db)
    let r4 := rset r3 "DODGE" (Val.vInt (calculate_dodge dex_val))
    let r5 := rset r4 "MOV" (Val.vInt (calculate_movement dex_val str_val siz_val))
    let base_total := sumCore r5
    .ok (rset r5 "基础总属性" (Val.vInt base_total), i3)

/-- `generate_single_base_attr(attr_name)` with explicit recursion fuel:
the source recurses once through DB/DODGE/MOV into the plain attributes,
so depth 2 suffices; fuel exhaustion is unreachable. -/
def generate_single_base_attrAux (fuel : Nat) (attr_name : String) (g : Nat → Nat) (i : Nat) :
    Except Unit (Int × Nat) :=
  match fuel with
  | 0 => .error ()
  | fuel + 1 =>
    match BASE_ATTR_TO_SHORT attr_name with
    | none => .error () -- raise ValueError: not a base attribute
    | some short_name =>
      if short_name ∈ ["HP", "MP", "SAN"] then
        .ok (if short_name = "HP" then 12 else if short_name = "MP" then 10 else 50, i)
      else if short_name ∈ ["STR", "CON", "DEX", "APP", "POW", "LUCK"] then
        .ok ((roll_dice g i 3 6 0).2 * 5, i + 3)
      else if short_name ∈ ["SIZ", "INT", "EDU"] then
        .ok (((roll_dice g i 2 6 0).2 + 6) * 5, i + 2)
      else if short_name = "DB" then do
        let (str_val, i1) ← generate_single_base_attrAux fuel "力量" g i
        let (siz_val, i2) ← generate_single_base_attrAux fuel "体型" g i1
        calculate_damage_bonus str_val siz_val g i2
      else if short_name = "DODGE" then do
        let (dex_val, i1) ← generate_single_base_attrAux fuel "敏捷" g i
        .ok (calculate_dodge dex_val, i1)
      else if short_name = "MOV" then do
        let (dex_val, i1) ← generate_single_base_attrAux fuel "敏捷" g i
        let (str_val, i2) ← generate_single_base_attrAux fuel "力量" g i1
        let (siz_val, i3) ← generate_single_base_attrAux fuel "体型" g i2
        .ok (calculate_movement dex_val str_val siz_val, i3)
      else .ok (0, i)

/-- `generate_single_base_attr(attr_name)`. -/
def generate_single_base_attr (attr_name : String) (g : Nat → Nat) (i : Nat) :
    Except Unit (Int × Nat) :=
  generate_single_base_attrAux 2 attr_name g i

/-! ## Import parsing -/

/-- `split_check_params(params)`: strip, then split at the first space
into the primary parameter and the free-text reason. -/
def split_check_params (params : String) : String × String :=
  let stripped := pythonStrip params.data
  if stripped = [] then ("", "")
  else
    match stripped.dropWhile (· ≠ ' ') with
    | [] => (⟨stripped⟩, "")
    | _ :: t => (⟨stripped.takeWhile (· ≠ ' ')⟩, ⟨t⟩)

/-- Character class of the name group `[^\d\s+-]+`. -/
def isNameChar (c : Char) : Bool := !c.isDigit && !isPySpace c && c ≠ '+' && c ≠ '-'

/-- Character class of the value group `[\d+-]+`. -/
def isValChar (c : Char) : Bool := c.isDigit || c = '+' || c = '-'

/-- One attempted match of `([^\d\s+-]+)\s*([\d+-]+(?:d\d+)?)` at the
head of the input: on success the captured (name, value) pair and the
remaining suffix.  The three classes are pairwise disjoint, so the
greedy runs need no backtracking; the optional `d\d+` tail extends the
value only when a digit follows the `d`. -/
def matchImportPairAt (l : List Char) : Option ((String × String) × List Char) :=
  let nm := l.takeWhile isNameChar
  if nm = [] then none
  else
    let r2 := (l.dropWhile isNameChar).dropWhile isPySpace
    let v1 := r2.takeWhile isValChar
    if v1 = [] then none
    else
      match r2.dropWhile isValChar with
      | 'd' :: r4 =>
        let ds := r4.takeWhile Char.isDigit
        if ds = [] then some ((⟨nm⟩, ⟨v1⟩), 'd' :: r4)
        else some ((⟨nm⟩, ⟨v1 ++ 'd' :: ds⟩), r4.dropWhile Char.isDigit)
      | r3 => some ((⟨nm⟩, ⟨v1⟩), r3)

/-- `re.findall` scan: try a match at each position, consuming matches
and skipping single characters otherwise.  Fuel is the input length;
every step consumes at least one character, so it never runs out. -/
def scanPairsAux (fuel : Nat) (l : List Char) : List (String × String) :=
  match fuel, l with
  | 0, _ => []
  | _ + 1, [] => []
  | fuel + 1, c :: rest =>
    match matchImportPairAt (c :: rest) with
    | some (p, r) => p :: scanPairsAux fuel r
    | none => scanPairsAux fuel rest

/-- `pattern.findall(params)` for the import pattern. -/
def scanPairs (l : List Char) : List (String × String) := scanPairsAux l.length l

/-- `ValueError`s raised by `parse_import_attr_params`. -/
inductive ImportErr where
  | noParameters
  | noRecognizedAttributes
deriving DecidableEq, Repr

/-- The clamp `max(0, min(200, attr_value))`. -/
def clamp200 (v : Int) : Int := max 0 (min 200 v)

/-- Processing of one scanned (name, value) pair in the import-parse
loop: alias-resolve the name, evaluate the value (a `d`-containing
value is parsed as a dice expression and rolled, otherwise parsed as a
plain integer; failures drop the pair silently), clamp, and overwrite
into the accumulating mapping. -/
def importPairStep (g : Nat → Nat) (acc : List (String × Int) × Nat)
    (pair : String × String) : List (String × Int) × Nat :=
  let raw_name := pair.1
  let value_str := pair.2
  let attr_name := pyLower (pyStrip raw_name)
  let standard_name := (ATTR_ALIAS_MAP.lookup attr_name).getD (pyStrip raw_name)
  let parsed : Option (Int × Nat) :=
    if (pyLower value_str).data.contains 'd' then
      match parse_dice_expression value_str with
      | .ok (count, face, modifier) =>
        some ((roll_dice g acc.2 count face modifier).2, acc.2 + count)
      | .error _ => none
    else
      (pyInt value_str).map (fun v => (v, acc.2))
  match parsed with
  | none => acc -- unparseable value: the pair is dropped silently
  | some (v, i2) => (rset acc.1 standard_name (clamp200 v), i2)

/-- `parse_import_attr_params(params)`: scan name/value pairs, process
each via `importPairStep`, failing when the input is blank or nothing
was recognized. -/
def parse_import_attr_params (params : String) (g : Nat → Nat) (i : Nat) :
    Except ImportErr (List (String × Int) × Nat) :=
  if pythonStrip params.data = [] then .error .noParameters
  else
    let pairMatches := scanPairs params.data
    if pairMatches = [] then .error .noRecognizedAttributes
    else
      .ok (pairMatches.foldl (importPairStep g) ([], i))

/-! ## Skill queries -/

/-- The entries of a record that count as custom skills: everything
outside `SHORT_TO_BASE_ATTR.keys() | {"基础总属性", "总属性", "昵称"}`. -/
def skillEntries (char_data : Record) : Record :=
  char_data.filter (fun p => !isExcludedKey p.1)

/-- `get_character_skills(char_data)`: the formatted skill lines and
their count. -/
def get_character_skills (char_data : Record) : List String × Nat :=
  let skill_lines := (skillEntries char_data).map
    (fun p => "🔹 " ++ p.1 ++ "：" ++ valToString p.2)
  (skill_lines, skill_lines.length)

/-- `get_single_skill_value(skill_name, char_data)`: base attributes
always resolve (missing short codes default to 0); other names resolve
as literal custom-skill keys outside the reserved set. -/
def get_single_skill_value (skill_name : String) (char_data : Record) :
    Bool × String × Option Val :=
  match BASE_ATTR_MAP.lookup skill_name with
  | some (short_name, full_name) =>
    (true, full_name, some ((rlookup char_data short_name).getD (Val.vInt 0)))
  | none =>
    if (rlookup char_data skill_name).isSome && !isExcludedKey skill_name then
      (true, skill_name, rlookup char_data skill_name)
    else (false, skill_name, none)

/-! ## Attribute deletion -/

/-- The reserved names the deletion branch checks literally. -/
def reservedNames : List String := ["基础总属性", "总属性", "昵称"]

/-- `delete_character_attribute(user_id, attr_name)`: reset a base
attribute to a fresh default, or remove an existing non-reserved custom
skill; in both cases recompute and store the core total.  The returned
record is the updated copy the caller writes back. -/
def delete_character_attribute (store : List (String × Record)) (user_id attr_name : String)
    (g : Nat → Nat) (i : Nat) : Except Unit (Bool × String × Record) :=
  match rlookup store user_id with
  | none => .ok (false, "你还未创建角色，无属性/技能可删除！", [])
  | some user_char =>
    match BASE_ATTR_MAP.lookup attr_name with
    | some (short_name, _) =>
      let old_value := (rlookup user_char short_name).getD (Val.vInt 0)
      match generate_single_base_attr attr_name g i with
      | .error e => .error e
      | .ok (new_value, _) =>
        let r1 := rset user_char short_name (Val.vInt new_value)
        let r2 := rset r1 "基础总属性" (Val.vInt (sumCore r1))
        .ok (true, "基础属性-" ++ attr_name ++ "已重置为默认值：" ++ valToString old_value
              ++ " → " ++ toString new_value, r2)
    | none =>
      match rlookup user_char attr_name with
      | some old_value =>
        if !isShortCode attr_name && !reservedNames.contains attr_name then
          let r1 := rdel user_char attr_name
          let r2 := rset r1 "基础总属性" (Val.vInt (sumCore r1))
          .ok (true, "技能-" ++ attr_name ++ "已删除（原值：" ++ valToString old_value ++ "）", r2)
        else .ok (false, "未找到属性/技能「" ++ attr_name ++ "」，无法删除！", user_char)
      | none => .ok (false, "未找到属性/技能「" ++ attr_name ++ "」，无法删除！", user_char)

/-! ## Command branches (`CoCDiceCommand.execute`) -/

/-- Failure of the `/导入` branch. -/
inductive ImportExecErr where
  | parseError (e : ImportErr)
  | raised
deriving DecidableEq, Repr

/-- Application of one parsed import pair to the record, collecting the
display line (`for attr_name, attr_value in import_attr_dict.items()`). -/
def importApplyPair (acc : Record × List String) (pair : String × Int) :
    Record × List String :=
  let attr_name := pair.1
  let attr_value := pair.2
  match BASE_ATTR_TO_SHORT attr_name with
  | some attr_short =>
    let old_value := (rlookup acc.1 attr_short).getD (Val.vInt 0)
    (rset acc.1 attr_short (Val.vInt attr_value),
     acc.2 ++ ["🔹 基础属性-" ++ attr_name ++ "(" ++ attr_short ++ ")："
               ++ valToString old_value ++ " → " ++ toString attr_value])
  | none =>
    let old_value := (rlookup acc.1 attr_name).getD (Val.vStr "无")
    (rset acc.1 attr_name (Val.vInt attr_value),
     acc.2 ++ ["🔹 技能-" ++ attr_name ++ "：" ++ valToString old_value
               ++ " → " ++ toString attr_value])

/-- The `/导入` branch: parse the pairs, auto-create a character when
none exists, apply each pair (base attributes by short code, everything
else as a literal key), then recompute and store the core total.
Returns the updated record, the total, the display lines, and the
auto-create flag; persisting and rendering are the I/O boundary. -/
def importExec (existing : Option Record) (user_nickname : String) (params : String)
    (g : Nat → Nat) (i : Nat) :
    Except ImportExecErr (Record × Int × List String × Bool) :=
  match parse_import_attr_params params g i with
  | .error e => .error (.parseError e)
  | .ok (import_attr_dict, i1) =>
    let created : Except ImportExecErr (Record × Bool) :=
      match existing with
      | none =>
        match generate_character_attributes user_nickname g i1 with
        | .ok (r, _) => .ok (r, true)
        | .error _ => .error .raised
      | some r => .ok (r, false)
    match created with
    | .error e => .error e
    | .ok (user_char0, is_auto_create) =>
      let applied := import_attr_dict.foldl importApplyPair (user_char0, [])
      let base_total := sumCore applied.1
      .ok (rset applied.1 "基础总属性" (Val.vInt base_total), base_total,
           applied.2, is_auto_create)

/-- Failure of the `/san检定` branch. -/
inductive SanErr where
  | noParams
  | malformedRule
  | noCharacter
  | sanZero
  | raised
deriving DecidableEq, Repr

/-- Outcome fields of a completed `/san检定`. -/
structure SanResult where
  record : Record
  before : Int
  roll : Int
  deduct : Int
  after : Int
  success : Bool
deriving DecidableEq, Repr

/-- The `/san检定` branch: validate the `succ/fail` rule, roll d100
against the current SAN, evaluate the selected deduction (an exception
there aborts the branch with nothing mutated), floor the new SAN at 0,
store it and recompute the core total. -/
def sanCheckExec (existing : Option Record) (params : String) (g : Nat → Nat) (i : Nat) :
    Except SanErr SanResult :=
  if pythonStrip params.data = [] then .error .noParams
  else
    let rule_part := (split_check_params params).1
    if rule_part = "" ∨ ¬ rule_part.data.contains '/' then .error .malformedRule
    else
      let success_deduct_expr := pyStrip ⟨rule_part.data.takeWhile (· ≠ '/')⟩
      let fail_deduct_expr := pyStrip ⟨(rule_part.data.dropWhile (· ≠ '/')).tail⟩
      match existing with
      | none => .error .noCharacter
      | some user_char =>
        let current_san := getI user_char "SAN"
        if current_san ≤ 0 then .error .sanZero
        else
          let roll_result := (roll_dice g i 1 100 0).2
          let before_san := current_san
          let deducted : Except SanErr (Int × Bool) :=
            if roll_result < current_san then
              match parse_san_deduct_value success_deduct_expr g (i + 1) with
              | .ok (d, _) => .ok (d, true)
              | .error _ => .error .raised
            else
              match parse_san_deduct_value fail_deduct_expr g (i + 1) with
              | .ok (d, _) => .ok (d, false)
              | .error _ => .error .raised
          match deducted with
          | .error e => .error e
          | .ok (deduct_value, success) =>
            let after_san := max (before_san - deduct_value) 0
            let r1 := rset user_char "SAN" (Val.vInt after_san)
            let r2 := rset r1 "基础总属性" (Val.vInt (sumCore r1))
            .ok ⟨r2, before_san, roll_result, deduct_value, after_san, success⟩

/-- Failure of the `/检定` branch. -/
inductive CheckErr where
  | missingParam
  | modifierFormat
  | noCharacter
  | attributeNotFound
  | thresholdOutOfRange
  | valueAbnormal
  | raised
deriving DecidableEq, Repr

/-- The judgement if-chain of the `/检定` branch (critical success,
then success, then critical failure, then failure). -/
def checkJudge (success_thresh fail_thresh check_threshold total : Int) : String :=
  if total ≤ success_thresh then "✨ 大成功！"
  else if total ≤ check_threshold then "✅ 检定成功！"
  else if total ≥ fail_thresh then "💥 大失败！"
  else "❌ 检定失败！"

/-- The regex `^([^\+\-]+)([\+\-]\d+)$`: a nonempty sign-free prefix,
then a sign and digits running to the end. -/
def matchAttrMod (cs : List Char) : Option (List Char × Char × List Char) :=
  let nm := cs.takeWhile (fun c => c ≠ '+' ∧ c ≠ '-')
  match cs.dropWhile (fun c => c ≠ '+' ∧ c ≠ '-') with
  | [] => none
  | s :: ds =>
    if nm ≠ [] ∧ ds ≠ [] ∧ ds.all Char.isDigit then some (nm, s, ds) else none

/-- Threshold resolution of the `/检定` branch: the three parameter
paths, each ending in its range validation. -/
def resolveCheckThreshold (existing : Option Record) (first_param : String) :
    Except CheckErr Int :=
  match matchAttrMod first_param.data with
  | some (nm, s, ds) =>
    let attr_name := pyStrip ⟨nm⟩
    match pyInt ⟨s :: ds⟩ with
    | none => .error .modifierFormat
    | some modifier =>
      match existing with
      | none => .error .noCharacter
      | some user_char =>
        let looked := get_single_skill_value attr_name user_char
        if !looked.1 then .error .attributeNotFound
        else
          match looked.2.2 with
          | some (Val.vInt base_value) =>
            let t := base_value + modifier
            if t < 0 ∨ t > 199 then .error .thresholdOutOfRange else .ok t
          | _ => .error .raised -- non-integer value: `base_value + modifier` raises
  | none =>
    if pyIsDigit first_param then
      let t : Int := digitsToNat first_param.data
      if t < 0 ∨ t > 199 then .error .thresholdOutOfRange else .ok t
    else
      match existing with
      | none => .error .noCharacter
      | some user_char =>
        let looked := get_single_skill_value first_param user_char
        if !looked.1 then .error .attributeNotFound
        else
          match looked.2.2 with
          | some (Val.vInt base_value) =>
            if base_value < 0 ∨ base_value > 200 then .error .valueAbnormal
            else .ok base_value
          | _ => .error .valueAbnormal -- `isinstance(check_threshold, int)` fails

/-- The `/检定` branch up to and including the roll: resolve the
effective threshold along one of the three paths (name±modifier,
integer literal, bare attribute/skill name), validate its range, then
roll 1d100 and judge.  Errors roll nothing, and the branch never
mutates the record. -/
def checkExec (existing : Option Record) (params : String)
    (success_thresh fail_thresh : Int) (g : Nat → Nat) (i : Nat) :
    Except CheckErr (Int × Int × String) :=
  let first_param := (split_check_params params).1
  if first_param = "" then .error .missingParam
  else
    match resolveCheckThreshold existing first_param with
    | .error e => .error e
    | .ok check_threshold =>
      let total := (roll_dice g i 1 100 0).2
      .ok (check_threshold, total, checkJudge success_thresh fail_thresh check_threshold total)

/-! ## Association-list lemmas -/

@[simp]
theorem rlookup_nil (k : String) : rlookup ([] : List (String × α)) k = none := rfl

@[simp]
theorem rlookup_cons (k₀ : String) (v₀ : α) (t : List (String × α)) (k : String) :
    rlookup ((k₀, v₀) :: t) k = if k = k₀ then some v₀ else rlookup t k := by
  by_cases h : k = k₀
  · simp [rlookup, List.lookup, h]
  · have hb : (k == k₀) = false := beq_eq_false_iff_ne.mpr h
    simp [rlookup, List.lookup, hb, h]

theorem lookup_rset_self (r : List (String × α)) (k : String) (v : α) :
    rlookup (rset r k v) k = some v := by
  induction r with
  | nil => simp [rset]
  | cons p t ih =>
    obtain ⟨k', v'⟩ := p
    by_cases h : k' = k
    · subst h; simp [rset]
    · simpa [rset, h, Ne.symm h] using ih

theorem lookup_rset_ne (r : List (String × α)) (k k' : String) (v : α) (h : k' ≠ k) :
    rlookup (rset r k v) k' = rlookup r k' := by
  induction r with
  | nil => simp [rset, h]
  | cons p t ih =>
    obtain ⟨k₀, v₀⟩ := p
    by_cases h0 : k₀ = k
    · subst h0; simp [rset, h]
    · by_cases h1 : k' = k₀
      · subst h1; simp [rset, h0]
      · simpa [rset, h0, h1] using ih

theorem getI_rset_ne (r : Record) (k k' : String) (v : Val) (h : k' ≠ k) :
    getI (rset r k v) k' = getI r k' := by
  unfold getI
  rw [lookup_rset_ne _ _ _ _ h]

theorem rkeys_rset (r : List (String × α)) (k : String) (v : α) :
    rkeys (rset r k v) = if (rlookup r k).isSome then rkeys r else rkeys r ++ [k] := by
  induction r with
  | nil => simp [rset, rkeys]
  | cons p t ih =>
    obtain ⟨k₀, v₀⟩ := p
    by_cases h0 : k₀ = k
    · subst h0; simp [rset, rkeys]
    · simp only [rset, if_neg h0, rkeys, List.map_cons, rlookup_cons,
        Ne.symm h0, if_false] at ih ⊢
      rw [ih]
      split <;> simp

theorem rkeys_rset_present (r : List (String × α)) (k : String) (v : α)
    (h : (rlookup r k).isSome) : rkeys (rset r k v) = rkeys r := by
  rw [rkeys_rset, if_pos h]

theorem rkeys_rdel (r : List (String × α)) (k : String) :
    rkeys (rdel r k) = (rkeys r).filter (· ≠ k) := by
  induction r with
  | nil => simp [rdel, rkeys]
  | cons p t ih =>
    obtain ⟨k₀, v₀⟩ := p
    by_cases h0 : k₀ = k
    · subst h0; simpa [rdel, rkeys] using ih
    · simpa [rdel, rkeys, h0] using ih

theorem lookup_rdel_ne (r : List (String × α)) (k k' : String) (h : k' ≠ k) :
    rlookup (rdel r k) k' = rlookup r k' := by
  induction r with
  | nil => simp [rdel]
  | cons p t ih =>
    obtain ⟨k₀, v₀⟩ := p
    by_cases h0 : k₀ = k
    · subst h0; simpa [rdel, h] using ih
    · by_cases h1 : k' = k₀
      · subst h1; simp [rdel, h0]
      · simpa [rdel, h0, h1] using ih

theorem getI_rdel_ne (r : Record) (k k' : String) (h : k' ≠ k) :
    getI (rdel r k) k' = getI r k' := by
  unfold getI
  rw [lookup_rdel_ne _ _ _ h]

/-! ## The core-total invariant -/

/-- The invariant of claim C1: the reserved total key holds exactly the
sum of the nine core short-codes' current values. -/
def coreInv (r : Record) : Prop :=
  rlookup r "基础总属性" = some (Val.vInt (sumCore r))

instance (r : Record) : Decidable (coreInv r) := by
  unfold coreInv; infer_instance

theorem sumCore_rset_not_core (r : Record) (k : String) (v : Val)
    (h : k ∉ CORE_BASE_ATTR_SHORTS) : sumCore (rset r k v) = sumCore r := by
  have hne : ∀ s, s ∈ CORE_BASE_ATTR_SHORTS → s ≠ k := fun s hs e => h (e ▸ hs)
  simp only [sumCore, CORE_BASE_ATTR_SHORTS, List.map_cons, List.map_nil]
  rw [getI_rset_ne _ _ _ _ (hne "STR" (by decide)),
      getI_rset_ne _ _ _ _ (hne "CON" (by decide)),
      getI_rset_ne _ _ _ _ (hne "SIZ" (by decide)),
      getI_rset_ne _ _ _ _ (hne "DEX" (by decide)),
      getI_rset_ne _ _ _ _ (hne "APP" (by decide)),
      getI_rset_ne _ _ _ _ (hne "INT" (by decide)),
      getI_rset_ne _ _ _ _ (hne "POW" (by decide)),
      getI_rset_ne _ _ _ _ (hne "EDU" (by decide)),
      getI_rset_ne _ _ _ _ (hne "LUCK" (by decide))]

/-- Storing the freshly recomputed total establishes the invariant:
the total key is not a core short-code, so the stored sum is still the
sum of the record it is stored into. -/
theorem coreInv_store (r : Record) :
    coreInv (rset r "基础总属性" (Val.vInt (sumCore r))) := by
  unfold coreInv
  rw [lookup_rset_self, sumCore_rset_not_core _ _ _ (by decide)]

/-! ## Inversion lemmas for the mutating operations -/

theorem generate_ok_coreInv (nickname : String) (g : Nat → Nat) (i : Nat)
    (r : Record) (i' : Nat)
    (h : generate_character_attributes nickname g i = .ok (r, i')) : coreInv r := by
  unfold generate_character_attributes at h
  dsimp only at h
  split at h
  · exact absurd h (by simp)
  · simp only [Except.ok.injEq, Prod.mk.injEq] at h
    exact h.1 ▸ coreInv_store _

theorem importExec_ok_coreInv (ex : Option Record) (nick params : String) (g : Nat → Nat)
    (i : Nat) (out : Record × Int × List String × Bool)
    (h : importExec ex nick params g i = .ok out) : coreInv out.1 := by
  unfold importExec at h
  cases hp : parse_import_attr_params params g i with
  | error e => rw [hp] at h; exact absurd h (by simp)
  | ok p =>
    rw [hp] at h
    obtain ⟨dict, i1⟩ := p
    dsimp only at h
    split at h
    · exact absurd h (by simp)
    · simp only [Except.ok.injEq] at h
      subst h
      exact coreInv_store _

theorem sanCheckExec_ok_spec (ex : Option Record) (params : String) (g : Nat → Nat)
    (i : Nat) (res : SanResult) (h : sanCheckExec ex params g i = .ok res) :
    ∃ user_char, ex = some user_char ∧
      res.before = getI user_char "SAN" ∧ 0 < res.before ∧
      res.roll = (roll_dice g i 1 100 0).2 ∧
      (res.success = true ↔ res.roll < res.before) ∧
      (∃ j, (if res.roll < res.before
             then parse_san_deduct_value
                    (pyStrip ⟨((split_check_params params).1).data.takeWhile (· ≠ '/')⟩) g (i + 1)
             else parse_san_deduct_value
                    (pyStrip ⟨(((split_check_params params).1).data.dropWhile (· ≠ '/')).tail⟩) g (i + 1))
            = .ok (res.deduct, j)) ∧
      res.after = max (res.before - res.deduct) 0 ∧
      res.record = rset (rset user_char "SAN" (Val.vInt res.after)) "基础总属性"
        (Val.vInt (sumCore (rset user_char "SAN" (Val.vInt res.after)))) := by
  cases ex with
  | none =>
    unfold sanCheckExec at h
    dsimp only at h
    split at h
    · exact absurd h (by simp)
    · split at h
      · exact absurd h (by simp)
      · exact absurd h (by simp)
  | some user_char =>
    unfold sanCheckExec at h
    dsimp only at h
    split at h
    · exact absurd h (by simp)
    · split at h
      · exact absurd h (by simp)
      · split at h
        · exact absurd h (by simp)
        · rename_i hsan
          refine ⟨user_char, rfl, ?_⟩
          by_cases hroll : (roll_dice g i 1 100 0).2 < getI user_char "SAN"
          · rw [if_pos hroll] at h
            cases hd : parse_san_deduct_value
                (pyStrip ⟨((split_check_params params).1).data.takeWhile (· ≠ '/')⟩) g (i + 1) with
            | error e => rw [hd] at h; exact absurd h (by simp)
            | ok dj =>
              rw [hd] at h
              obtain ⟨d, j⟩ := dj
              dsimp only at h
              simp only [Except.ok.injEq] at h
              subst h
              simp only [not_le] at hsan
              exact ⟨rfl, hsan, rfl, by simp [hroll], ⟨j, by simp [hroll, hd]⟩, rfl, rfl⟩
          · rw [if_neg hroll] at h
            cases hd : parse_san_deduct_value
                (pyStrip ⟨(((split_check_params params).1).data.dropWhile (· ≠ '/')).tail⟩) g (i + 1) with
            | error e => rw [hd] at h; exact absurd h (by simp)
            | ok dj =>
              rw [hd] at h
              obtain ⟨d, j⟩ := dj
              dsimp only at h
              simp only [Except.ok.injEq] at h
              subst h
              simp only [not_le] at hsan
              exact ⟨rfl, hsan, rfl, by simp [hroll], ⟨j, by simp [hroll, hd]⟩, rfl, rfl⟩

theorem delete_ok_spec (store : List (String × Record)) (user_id attr_name : String)
    (g : Nat → Nat) (i : Nat) (d : String) (r' : Record)
    (h : delete_character_attribute store user_id attr_name g i = .ok (true, d, r')) :
    ∃ user_char, rlookup store user_id = some user_char ∧
      ((∃ sf nv j, BASE_ATTR_MAP.lookup attr_name = some sf ∧
          generate_single_base_attr attr_name g i = .ok (nv, j) ∧
          r' = rset (rset user_char sf.1 (Val.vInt nv)) "基础总属性"
                 (Val.vInt (sumCore (rset user_char sf.1 (Val.vInt nv)))))
       ∨ (BASE_ATTR_MAP.lookup attr_name = none ∧
          (∃ old, rlookup user_char attr_name = some old) ∧
          isShortCode attr_name = false ∧ reservedNames.contains attr_name = false ∧
          r' = rset (rdel user_char attr_name) "基础总属性"
                 (Val.vInt (sumCore (rdel user_char attr_name))))) := by
  unfold delete_character_attribute at h
  cases hu : rlookup store user_id with
  | none => rw [hu] at h; exact absurd h (by simp)
  | some user_char =>
    rw [hu] at h
    dsimp only at h
    refine ⟨user_char, rfl, ?_⟩
    cases hb : BASE_ATTR_MAP.lookup attr_name with
    | some sf =>
      rw [hb] at h
      obtain ⟨short_name, full_name⟩ := sf
      dsimp only at h
      cases hg : generate_single_base_attr attr_name g i with
      | error e => rw [hg] at h; exact absurd h (by simp)
      | ok nvj =>
        rw [hg] at h
        obtain ⟨nv, j⟩ := nvj
        dsimp only at h
        simp only [Except.ok.injEq, Prod.mk.injEq] at h
        exact Or.inl ⟨(short_name, full_name), nv, j, rfl, rfl, h.2.2.symm⟩
    | none =>
      rw [hb] at h
      cases ho : rlookup user_char attr_name with
      | none => rw [ho] at h; exact absurd h (by simp)
      | some old =>
        rw [ho] at h
        dsimp only at h
        split at h
        · rename_i hcond
          simp only [Bool.and_eq_true, Bool.not_eq_true'] at hcond
          simp only [Except.ok.injEq, Prod.mk.injEq] at h
          exact Or.inr ⟨rfl, ⟨old, rfl⟩, hcond.1, hcond.2, h.2.2.symm⟩
        · exact absurd h (by simp)

theorem getI_rset_self (r : Record) (k : String) (n : Int) :
    getI (rset r k (Val.vInt n)) k = n := by
  unfold getI
  rw [lookup_rset_self]

theorem mem_rset (d : List (String × α)) (k : String) (v : α) (kv : String × α)
    (h : kv ∈ rset d k v) : kv = (k, v) ∨ kv ∈ d := by
  induction d with
  | nil => simpa [rset] using h
  | cons p t ih =>
    obtain ⟨k₀, v₀⟩ := p
    by_cases h0 : k₀ = k
    · subst h0
      rcases (by simpa [rset] using h : kv = (k₀, v) ∨ kv ∈ t) with h1 | h1
      · exact Or.inl h1
      · exact Or.inr (List.mem_cons_of_mem _ h1)
    · rcases (by simpa [rset, h0] using h : kv = (k₀, v₀) ∨ kv ∈ rset t k v) with h1 | h1
      · exact Or.inr (by simp [h1])
      · rcases ih h1 with h2 | h2
        · exact Or.inl h2
        · exact Or.inr (List.mem_cons_of_mem _ h2)

theorem lookup_mem_values (l : List (String × β)) (k : String) (v : β)
    (h : List.lookup k l = some v) : v ∈ l.map (·.2) := by
  induction l with
  | nil => simp [List.lookup] at h
  | cons p t ih =>
    obtain ⟨k₀, v₀⟩ := p
    by_cases h0 : k = k₀
    · subst h0
      simp only [List.lookup, beq_self_eq_true, Option.some.injEq] at h
      simp [h]
    · have hb : (k == k₀) = false := beq_eq_false_iff_ne.mpr h0
      simp only [List.lookup, hb] at h
      simp [ih h]

theorem clamp200_bounds (v : Int) : 0 ≤ clamp200 v ∧ clamp200 v ≤ 200 :=
  ⟨le_max_left 0 _, max_le (by norm_num) (min_le_left _ _)⟩

theorem parse_san_deduct_ok_ge_one (expr : String) (g : Nat → Nat) (i : Nat) (d : Int) (j : Nat)
    (h : parse_san_deduct_value expr g i = .ok (d, j)) : 1 ≤ d := by
  unfold parse_san_deduct_value at h
  split at h
  · cases hp : pyInt expr with
    | none => rw [hp] at h; exact absurd h (by simp)
    | some v =>
      rw [hp] at h
      simp only [Except.ok.injEq, Prod.mk.injEq] at h
      rw [← h.1]
      exact le_max_right _ _
  · cases hd : parse_dice_expression expr with
    | ok t =>
      rw [hd] at h
      obtain ⟨c, f, m⟩ := t
      dsimp only at h
      simp only [Except.ok.injEq, Prod.mk.injEq] at h
      rw [← h.1]
      exact le_max_right _ _
    | error e =>
      rw [hd] at h
      simp only [Except.ok.injEq, Prod.mk.injEq] at h
      rw [← h.1]

/-- An expression whose `lstrip('-')` is not a pure digit run never
raises in `parse_san_deduct_value`: it takes the guarded dice branch,
which falls back to 1 on any parse failure. -/
theorem parse_san_deduct_not_digit_ok (expr : String) (g : Nat → Nat) (i : Nat)
    (h : pyIsDigit (pyLstripMinus expr) = false) :
    ∃ d j, parse_san_deduct_value expr g i = .ok (d, j) ∧ 1 ≤ d := by
  unfold parse_san_deduct_value
  rw [h]
  simp only [Bool.false_eq_true, if_false]
  cases hd : parse_dice_expression expr with
  | ok t =>
    obtain ⟨c, f, m⟩ := t
    exact ⟨max ((roll_dice g i c f m).2) 1, i + c, rfl, le_max_right _ _⟩
  | error e => exact ⟨1, i, rfl, le_refl 1⟩

/-! ## Claim theorems -/

/-- C1: after each successfully completed mutating operation — import
(`/导入`), attribute delete/reset (`/删除`), SAN-check deduction
(`/san检定`), and character creation — the value stored under the
reserved total key `基础总属性` equals the sum of the current integer
values of the 9 core short-codes STR…LUCK, a missing short-code
counting as 0 (`coreInv`). -/
theorem C1_core_total_invariant :
    (∀ (ex : Option Record) (nick params : String) (g : Nat → Nat) (i : Nat) out,
       importExec ex nick params g i = .ok out → coreInv out.1) ∧
    (∀ (store : List (String × Record)) (uid name : String) (g : Nat → Nat) (i : Nat) d r',
       delete_character_attribute store uid name g i = .ok (true, d, r') → coreInv r') ∧
    (∀ (ex : Option Record) (params : String) (g : Nat → Nat) (i : Nat) res,
       sanCheckExec ex params g i = .ok res → coreInv res.record) ∧
    (∀ (nick : String) (g : Nat → Nat) (i : Nat) r i',
       generate_character_attributes nick g i = .ok (r, i') → coreInv r) := by
  refine ⟨fun ex nick params g i out h => importExec_ok_coreInv _ _ _ _ _ _ h,
          fun store uid name g i d r' h => ?_,
          fun ex params g i res h => ?_,
          fun nick g i r i' h => generate_ok_coreInv _ _ _ _ _ h⟩
  · obtain ⟨uc, -, hcase⟩ := delete_ok_spec _ _ _ _ _ _ _ h
    rcases hcase with ⟨sf, nv, j, -, -, hr⟩ | ⟨-, -, -, -, hr⟩ <;>
      exact hr ▸ coreInv_store _
  · obtain ⟨uc, -, -, -, -, -, -, -, hr⟩ := sanCheckExec_ok_spec _ _ _ _ _ h
    exact hr ▸ coreInv_store _

/-- Witness for C1 at concrete inputs (oracle constantly 0). -/
theorem C1_core_total_invariant_witness :
    coreInv ((importExec (some [("STR", Val.vInt 10), ("基础总属性", Val.vInt 10)]) "甲" "力量80"
        (fun _ => 0) 0).toOption.getD ([], 0, [], false)).1 ∧
    coreInv (( delete_character_attribute [("u", [("侦查", Val.vInt 60), ("基础总属性", Val.vInt 0)])]
        "u" "侦查" (fun _ => 0) 0).toOption.getD (false, "", [])).2.2 ∧
    coreInv ((sanCheckExec (some [("SAN", Val.vInt 40)]) "1/2" (fun _ => 0) 0).toOption.getD
        ⟨[], 0, 0, 0, 0, false⟩).record ∧
    coreInv ((generate_character_attributes "甲" (fun _ => 0) 0).toOption.getD ([], 0)).1 :=
  ⟨C1_core_total_invariant.1 (some [("STR", Val.vInt 10), ("基础总属性", Val.vInt 10)]) "甲"
      "力量80" (fun _ => 0) 0 _ rfl,
   C1_core_total_invariant.2.1 [("u", [("侦查", Val.vInt 60), ("基础总属性", Val.vInt 0)])]
      "u" "侦查" (fun _ => 0) 0 _ _ rfl,
   C1_core_total_invariant.2.2.1 (some [("SAN", Val.vInt 40)]) "1/2" (fun _ => 0) 0 _ rfl,
   C1_core_total_invariant.2.2.2 "甲" (fun _ => 0) 0 _ _ rfl⟩

/-- C4: the check judgement is decided in the fixed order critical
success (`roll ≤ successThreshold`), then plain success
(`roll ≤ threshold`), then critical failure (`roll ≥ failThreshold`),
then plain failure — so a roll that is both `≤ threshold` and
`≥ failThreshold` (but above the critical-success bound) is a plain
success, and a roll `≤ successThreshold` is a critical success even
when it exceeds the threshold. -/
theorem C4_judgement_order (success_thresh fail_thresh check_threshold total : Int) :
    (total ≤ success_thresh →
      checkJudge success_thresh fail_thresh check_threshold total = "✨ 大成功！") ∧
    (success_thresh < total → total ≤ check_threshold →
      checkJudge success_thresh fail_thresh check_threshold total = "✅ 检定成功！") ∧
    (success_thresh < total → check_threshold < total → fail_thresh ≤ total →
      checkJudge success_thresh fail_thresh check_threshold total = "💥 大失败！") ∧
    (success_thresh < total → check_threshold < total → total < fail_thresh →
      checkJudge success_thresh fail_thresh check_threshold total = "❌ 检定失败！") := by
  refine ⟨fun h1 => ?_, fun h1 h2 => ?_, fun h1 h2 h3 => ?_, fun h1 h2 h3 => ?_⟩ <;>
    unfold checkJudge
  · rw [if_pos h1]
  · rw [if_neg (by omega), if_pos h2]
  · rw [if_neg (by omega), if_neg (by omega), if_pos (by omega)]
  · rw [if_neg (by omega), if_neg (by omega), if_neg (by omega)]

/-- Witness for C4 with the default thresholds 5/96: a roll of 97
against threshold 97 is inside the critical-failure zone yet judged a
plain success, and a roll of 3 against threshold 2 is a critical
success although it exceeds the threshold. -/
theorem C4_judgement_order_witness :
    checkJudge 5 96 97 97 = "✅ 检定成功！" ∧
    checkJudge 5 96 2 3 = "✨ 大成功！" ∧
    checkJudge 5 96 90 97 = "💥 大失败！" ∧
    checkJudge 5 96 90 91 = "❌ 检定失败！" :=
  ⟨(C4_judgement_order 5 96 97 97).2.1 (by norm_num) (by norm_num),
   (C4_judgement_order 5 96 2 3).1 (by norm_num),
   (C4_judgement_order 5 96 90 97).2.2.1 (by norm_num) (by norm_num) (by norm_num),
   (C4_judgement_order 5 96 90 91).2.2.2 (by norm_num) (by norm_num) (by norm_num)⟩

/-- C6: for every count, every modifier, every face count ≥ 1 and every
outcome of the random oracle, `roll_dice` returns exactly `count`
rolls, each in `[1, face]`, and a total equal to the sum of the rolls
plus the modifier. -/
theorem C6_roll_dice_spec (g : Nat → Nat) (i : Nat) (count face : Nat) (modifier : Int)
    (h : 1 ≤ face) :
    (roll_dice g i count face modifier).1.length = count ∧
    (∀ r ∈ (roll_dice g i count face modifier).1, 1 ≤ r ∧ r ≤ face) ∧
    (roll_dice g i count face modifier).2 =
      (((roll_dice g i count face modifier).1.foldl (· + ·) 0 : Nat) : Int) + modifier := by
  refine ⟨by simp [roll_dice], ?_, rfl⟩
  intro r hr
  simp only [roll_dice, randint1, List.mem_map, List.mem_range] at hr
  obtain ⟨j, -, rfl⟩ := hr
  have hlt := Nat.mod_lt (g (i + j)) (show 0 < face by omega)
  omega

/-- Witness for C6 at face 6, three dice, modifier −2. -/
theorem C6_roll_dice_spec_witness :
    1 ≤ 6 ∧ (roll_dice (fun _ => 0) 0 3 6 (-2)).1.length = 3 :=
  ⟨by norm_num, (C6_roll_dice_spec (fun _ => 0) 0 3 6 (-2) (by norm_num)).1⟩

/-- C10: for every record and every canonical base attribute name
(including HP/MP/SAN/DB/DODGE/MOV), `get_single_skill_value` returns
found = true with the display label and the stored short-code value
(0 when the short-code key is missing) — the not-found branch is never
taken for a base attribute. -/
theorem C10_base_lookup_total (rec : Record) (name : String) (sf : String × String)
    (h : BASE_ATTR_MAP.lookup name = some sf) :
    get_single_skill_value name rec =
      (true, sf.2, some ((rlookup rec sf.1).getD (Val.vInt 0))) ∧
    (rlookup rec sf.1 = none →
      get_single_skill_value name rec = (true, sf.2, some (Val.vInt 0))) := by
  obtain ⟨s, f⟩ := sf
  unfold get_single_skill_value
  rw [h]
  dsimp only
  exact ⟨rfl, fun h2 => by rw [h2]; rfl⟩

/-- Witness for C10: the luck attribute on an empty record is found
with value 0. -/
theorem C10_base_lookup_total_witness :
    get_single_skill_value "幸运" [] = (true, "🍀幸运(LUCK)", some (Val.vInt 0)) :=
  (C10_base_lookup_total [] "幸运" ("LUCK", "🍀幸运(LUCK)") rfl).2 rfl

/-- C2 counterexample: importing the text `昵称50` on an existing record
stores the parsed value 50 under the reserved nickname key `昵称`,
replacing the stored nickname string — the import path does not exclude
reserved keys, contradicting the claim. -/
theorem C2_counterexample :
    importExec (some [("昵称", Val.vStr "旧名"), ("STR", Val.vInt 10), ("基础总属性", Val.vInt 10)])
        "甲" "昵称50" (fun _ => 0) 0 =
      .ok ([("昵称", Val.vInt 50), ("STR", Val.vInt 10), ("基础总属性", Val.vInt 10)], 10,
           ["🔹 技能-昵称：旧名 → 50"], false) := rfl

/-- C2 (amended): the reserved keys `基础总属性` and `昵称` are excluded
from skill listing, from single-skill lookup, and from deletion; but
the import path does not exclude them — a pair parsed for `昵称` is
stored under the reserved nickname key (see the counterexample), while
a pair parsed for `基础总属性` is overwritten at the end of the import
by the freshly recomputed total, so after every successful import the
total key holds exactly the recomputed core total. -/
theorem C2_reserved_keys_amended :
    (∀ (rec : Record) (k : String) (v : Val), (k, v) ∈ skillEntries rec →
       k ≠ "基础总属性" ∧ k ≠ "昵称") ∧
    (∀ rec : Record, (get_single_skill_value "基础总属性" rec).1 = false ∧
       (get_single_skill_value "昵称" rec).1 = false) ∧
    (∀ (store : List (String × Record)) (uid : String) (g : Nat → Nat) (i : Nat)
       (name : String), name = "基础总属性" ∨ name = "昵称" →
       ∀ out, delete_character_attribute store uid name g i = .ok out → out.1 = false) ∧
    (∀ (ex : Option Record) (nick params : String) (g : Nat → Nat) (i : Nat) out,
       importExec ex nick params g i = .ok out → coreInv out.1) := by
  refine ⟨?_, ?_, ?_, fun ex nick params g i out h => importExec_ok_coreInv _ _ _ _ _ _ h⟩
  · intro rec k v h
    have h2 := (List.mem_filter.mp h).2
    simp only [Bool.not_eq_eq_eq_not, Bool.not_true] at h2
    constructor <;> rintro rfl <;> simp [isExcludedKey] at h2
  · intro rec
    constructor
    · unfold get_single_skill_value
      rw [show List.lookup "基础总属性" BASE_ATTR_MAP = (none : Option (String × String)) from rfl]
      simp [show isExcludedKey "基础总属性" = true from rfl]
    · unfold get_single_skill_value
      rw [show List.lookup "昵称" BASE_ATTR_MAP = (none : Option (String × String)) from rfl]
      simp [show isExcludedKey "昵称" = true from rfl]
  · intro store uid g i name hname out h
    have hlook : List.lookup name BASE_ATTR_MAP = (none : Option (String × String)) := by
      rcases hname with rfl | rfl <;> rfl
    have hcond : (!isShortCode name && !reservedNames.contains name) = false := by
      rcases hname with rfl | rfl <;> rfl
    unfold delete_character_attribute at h
    cases hu : rlookup store uid with
    | none => rw [hu] at h; cases h; rfl
    | some uc =>
      rw [hu] at h
      dsimp only at h
      rw [hlook] at h
      dsimp only at h
      cases ho : rlookup uc name with
      | none => rw [ho] at h; cases h; rfl
      | some old =>
        rw [ho] at h
        dsimp only at h
        rw [if_neg (by rw [hcond]; exact Bool.false_ne_true)] at h
        cases h
        rfl

/-- Witness for C2 (amended) at concrete inputs. -/
theorem C2_reserved_keys_amended_witness :
    ("侦查" ≠ "基础总属性" ∧ "侦查" ≠ "昵称") ∧
    ((get_single_skill_value "基础总属性" []).1 = false ∧
      (get_single_skill_value "昵称" []).1 = false) ∧
    (( delete_character_attribute [("u", [("昵称", Val.vStr "n")])] "u" "昵称"
        (fun _ => 0) 0).toOption.getD (true, "", [])).1 = false ∧
    coreInv ((importExec (some [("STR", Val.vInt 10)]) "甲" "昵称50"
        (fun _ => 0) 0).toOption.getD ([], 0, [], false)).1 :=
  ⟨C2_reserved_keys_amended.1 [("侦查", Val.vInt 60)] "侦查" (Val.vInt 60) (by decide),
   C2_reserved_keys_amended.2.1 [],
   C2_reserved_keys_amended.2.2.1 [("u", [("昵称", Val.vStr "n")])] "u" (fun _ => 0) 0
     "昵称" (Or.inr rfl) _ rfl,
   C2_reserved_keys_amended.2.2.2 (some [("STR", Val.vInt 10)]) "甲" "昵称50"
     (fun _ => 0) 0 _ rfl⟩

/-- C7 counterexample: the rule `--5/1` passes the well-formedness
check; on a success roll the selected deduction expression `--5`
passes the `lstrip('-').isdigit()` test but `int("--5")` raises, so the
sanity check aborts with an exception instead of deducting 1 — the
claim that unparseable expressions yield 1 fails here. -/
theorem C7_counterexample :
    sanCheckExec (some [("SAN", Val.vInt 40)]) "--5/1" (fun _ => 0) 0 = .error .raised ∧
    parse_san_deduct_value "--5" (fun _ => 0) 1 = .error () := ⟨rfl, rfl⟩

/-- C7 (amended): for every completed sanity check the d100 roll gives
success exactly when it is below the SAN before the check, the
evaluated deduction is ≥ 1, the new SAN is `max(before − deduct, 0)`
and is stored with the core total recomputed.  Deduction expressions
are floored at 1 (integer literals, including 0 and negatives, and
rolled dice expressions alike), and any expression whose
`'-'`-stripped form is not a pure digit run yields a value ≥ 1 even
when unparseable (defaulting to 1); the exception is an expression of
two or more leading minus signs followed by digits, where `int()`
raises and the check aborts unmutated (see the counterexample). -/
theorem C7_sanity_check_amended :
    (∀ (ex : Option Record) (params : String) (g : Nat → Nat) (i : Nat) res,
       sanCheckExec ex params g i = .ok res →
       ∃ user_char, ex = some user_char ∧
         res.before = getI user_char "SAN" ∧ 0 < res.before ∧
         (res.success = true ↔ res.roll < res.before) ∧
         1 ≤ res.deduct ∧
         res.after = max (res.before - res.deduct) 0 ∧
         getI res.record "SAN" = res.after ∧
         coreInv res.record) ∧
    (∀ (expr : String) (g : Nat → Nat) (i : Nat) d j,
       parse_san_deduct_value expr g i = .ok (d, j) → 1 ≤ d) ∧
    (∀ (expr : String) (g : Nat → Nat) (i : Nat),
       pyIsDigit (pyLstripMinus expr) = false →
       ∃ d j, parse_san_deduct_value expr g i = .ok (d, j) ∧ 1 ≤ d) := by
  refine ⟨?_, fun expr g i d j h => parse_san_deduct_ok_ge_one _ _ _ _ _ h,
          fun expr g i h => parse_san_deduct_not_digit_ok _ _ _ h⟩
  intro ex params g i res h
  obtain ⟨uc, hex, hbefore, hpos, -, hsucc, ⟨j, hj⟩, hafter, hrec⟩ :=
    sanCheckExec_ok_spec _ _ _ _ _ h
  refine ⟨uc, hex, hbefore, hpos, hsucc, ?_, hafter, ?_, ?_⟩
  · by_cases hr : res.roll < res.before
    · rw [if_pos hr] at hj
      exact parse_san_deduct_ok_ge_one _ _ _ _ _ hj
    · rw [if_neg hr] at hj
      exact parse_san_deduct_ok_ge_one _ _ _ _ _ hj
  · rw [hrec, getI_rset_ne _ _ _ _ (by decide), getI_rset_self]
  · exact hrec ▸ coreInv_store _

/-- Witness for C7 (amended): the literal deduction expression `0` is
floored at 1. -/
theorem C7_sanity_check_amended_witness :
    parse_san_deduct_value "0" (fun _ => 0) 0 = .ok (1, 0) ∧ (1 : Int) ≤ 1 :=
  ⟨rfl, C7_sanity_check_amended.2.1 "0" (fun _ => 0) 0 1 0 rfl⟩

/-- Every value surviving one import-pair step stays within the clamp
bounds. -/
theorem importPairStep_preserves (g : Nat → Nat) (acc : List (String × Int) × Nat)
    (pair : String × String) (hacc : ∀ kv ∈ acc.1, 0 ≤ kv.2 ∧ kv.2 ≤ 200) :
    ∀ kv ∈ (importPairStep g acc pair).1, 0 ≤ kv.2 ∧ kv.2 ≤ 200 := by
  intro kv hkv
  unfold importPairStep at hkv
  dsimp only at hkv
  split at hkv
  · exact hacc _ hkv
  · rename_i v i2 heq
    rcases mem_rset _ _ _ _ hkv with rfl | hmem
    · exact clamp200_bounds v
    · exact hacc _ hmem

theorem foldl_importPairStep_preserves (g : Nat → Nat) (pairs : List (String × String)) :
    ∀ acc, (∀ kv ∈ acc.1, 0 ≤ kv.2 ∧ kv.2 ≤ 200) →
      ∀ kv ∈ (pairs.foldl (importPairStep g) acc).1, 0 ≤ kv.2 ∧ kv.2 ≤ 200 := by
  induction pairs with
  | nil => intro acc hacc; simpa using hacc
  | cons p t ih =>
    intro acc hacc
    simp only [List.foldl_cons]
    exact ih _ (importPairStep_preserves _ _ _ hacc)

/-- C8: every value in the mapping returned by the import parser is the
clamp `max(0, min(200, v))` of its parsed value, hence lies in
`[0, 200]`. -/
theorem C8_import_clamp (params : String) (g : Nat → Nat) (i : Nat)
    (out : List (String × Int) × Nat)
    (h : parse_import_attr_params params g i = .ok out) :
    ∀ kv ∈ out.1, 0 ≤ kv.2 ∧ kv.2 ≤ 200 := by
  unfold parse_import_attr_params at h
  split at h
  · exact absurd h (by simp)
  · dsimp only at h
    split at h
    · exact absurd h (by simp)
    · simp only [Except.ok.injEq] at h
      subst h
      exact foldl_importPairStep_preserves g _ ([], i) (by simp)

/-- Witness for C8: `力量300敏捷-5` clamps 300 down to 200 and −5 up
to 0. -/
theorem C8_import_clamp_witness :
    parse_import_attr_params "力量300敏捷-5" (fun _ => 0) 0 =
      .ok ([("力量", 200), ("敏捷", 0)], 0) ∧
    (0 ≤ (("力量", (200 : Int)).2) ∧ ("力量", (200 : Int)).2 ≤ 200) :=
  ⟨rfl, C8_import_clamp "力量300敏捷-5" (fun _ => 0) 0 ([("力量", 200), ("敏捷", 0)], 0)
     rfl ("力量", 200) (by decide)⟩

/-- Every short code in the base-attribute table differs from the
reserved total key. -/
theorem base_short_ne_total (name : String) (sf : String × String)
    (h : List.lookup name BASE_ATTR_MAP = some sf) : sf.1 ≠ "基础总属性" := by
  have hmem := lookup_mem_values _ _ _ h
  simp only [BASE_ATTR_MAP, List.map_cons, List.map_nil, List.mem_cons,
    List.not_mem_nil, or_false] at hmem
  rcases hmem with rfl | rfl | rfl | rfl | rfl | rfl | rfl | rfl | rfl | rfl | rfl | rfl |
    rfl | rfl | rfl <;> decide

/-- C9 counterexample: on a record that does not contain the STR key
(reachable only outside the program's own record lifecycle), deleting
力量 adds the short-code key and the total key, so the key count grows
from 0 to 2 — the claim's "key count unchanged" is not uncondition-
ally true of every record. -/
theorem C9_counterexample :
    delete_character_attribute [("u", [])] "u" "力量" (fun _ => 0) 0 =
      .ok (true, "基础属性-力量已重置为默认值：0 → 15",
           [("STR", Val.vInt 15), ("基础总属性", Val.vInt 15)]) ∧
    ([("STR", Val.vInt 15), ("基础总属性", Val.vInt 15)] : Record).length ≠
      ([] : Record).length :=
  ⟨rfl, by decide⟩

/-- C9 (amended): on every record that already contains the attribute's
short-code key and the reserved total key — true of every record the
program itself creates — deleting a base attribute removes no key (the
key list is unchanged; the short-code value is replaced by a freshly
generated default), deleting an existing non-reserved custom skill
removes exactly that key, and in both cases no other key's value
changes except the reserved total key. -/
theorem C9_delete_frame_amended :
    (∀ (store : List (String × Record)) (uid name : String) (g : Nat → Nat) (i : Nat)
       (d : String) (r' : Record) (sf : String × String) (user_char : Record),
       delete_character_attribute store uid name g i = .ok (true, d, r') →
       rlookup store uid = some user_char →
       BASE_ATTR_MAP.lookup name = some sf →
       (rlookup user_char sf.1).isSome = true →
       (rlookup user_char "基础总属性").isSome = true →
       rkeys r' = rkeys user_char ∧
       (∀ k, k ≠ sf.1 → k ≠ "基础总属性" → rlookup r' k = rlookup user_char k) ∧
       (∃ nv j, generate_single_base_attr name g i = .ok (nv, j) ∧
          rlookup r' sf.1 = some (Val.vInt nv))) ∧
    (∀ (store : List (String × Record)) (uid name : String) (g : Nat → Nat) (i : Nat)
       (d : String) (r' : Record) (user_char : Record),
       delete_character_attribute store uid name g i = .ok (true, d, r') →
       rlookup store uid = some user_char →
       BASE_ATTR_MAP.lookup name = none →
       (rlookup user_char "基础总属性").isSome = true →
       rkeys r' = (rkeys user_char).filter (· ≠ name) ∧
       (∀ k, k ≠ name → k ≠ "基础总属性" → rlookup r' k = rlookup user_char k)) := by
  constructor
  · intro store uid name g i d r' sf user_char h hu hb hshort htot
    obtain ⟨uc', hu', hcase⟩ := delete_ok_spec _ _ _ _ _ _ _ h
    obtain rfl : uc' = user_char := Option.some.inj (hu'.symm.trans hu)
    rcases hcase with ⟨sf', nv, j, hb', hg, hr⟩ | ⟨hb', -, -, -, -⟩
    · have heq : sf' = sf := Option.some.inj (hb'.symm.trans hb)
      rw [heq] at hr
      have hne : sf.1 ≠ "基础总属性" := base_short_ne_total _ _ hb
      refine ⟨?_, ?_, nv, j, hg, ?_⟩
      · rw [hr, rkeys_rset_present _ _ _ (by rw [lookup_rset_ne _ _ _ _ (Ne.symm hne)]; exact htot),
            rkeys_rset_present _ _ _ hshort]
      · intro k hk1 hk2
        rw [hr, lookup_rset_ne _ _ _ _ hk2, lookup_rset_ne _ _ _ _ hk1]
      · rw [hr, lookup_rset_ne _ _ _ _ hne, lookup_rset_self]
    · exact absurd (hb'.symm.trans hb) (by simp)
  · intro store uid name g i d r' user_char h hu hb htot
    obtain ⟨uc', hu', hcase⟩ := delete_ok_spec _ _ _ _ _ _ _ h
    obtain rfl : uc' = user_char := Option.some.inj (hu'.symm.trans hu)
    rcases hcase with ⟨sf', nv, j, hb', -, -⟩ | ⟨-, -, -, hres, hr⟩
    · exact absurd (hb.symm.trans hb') (by simp)
    · have hnt : name ≠ "基础总属性" := by
        rintro rfl
        exact absurd hres (by decide)
      constructor
      · rw [hr, rkeys_rset_present _ _ _
            (by rw [lookup_rdel_ne _ _ _ (Ne.symm hnt)]; exact htot), rkeys_rdel]
      · intro k hk1 hk2
        rw [hr, lookup_rset_ne _ _ _ _ hk2, lookup_rdel_ne _ _ _ hk1]

/-- Witness for C9 (amended): resetting 力量 on a complete record keeps
the key list; deleting the custom skill 侦查 removes exactly that key. -/
theorem C9_delete_frame_amended_witness :
    rkeys (( delete_character_attribute [("u", [("STR", Val.vInt 50), ("基础总属性", Val.vInt 50)])]
        "u" "力量" (fun _ => 0) 0).toOption.getD (false, "", [])).2.2 =
      rkeys ([("STR", Val.vInt 50), ("基础总属性", Val.vInt 50)] : Record) ∧
    rkeys (( delete_character_attribute [("u", [("侦查", Val.vInt 60), ("基础总属性", Val.vInt 60)])]
        "u" "侦查" (fun _ => 0) 0).toOption.getD (false, "", [])).2.2 =
      (rkeys ([("侦查", Val.vInt 60), ("基础总属性", Val.vInt 60)] : Record)).filter (· ≠ "侦查") :=
  ⟨(C9_delete_frame_amended.1 [("u", [("STR", Val.vInt 50), ("基础总属性", Val.vInt 50)])]
      "u" "力量" (fun _ => 0) 0 _ _ ("STR", "💪力量(STR)")
      [("STR", Val.vInt 50), ("基础总属性", Val.vInt 50)] rfl rfl rfl rfl rfl).1,
   (C9_delete_frame_amended.2 [("u", [("侦查", Val.vInt 60), ("基础总属性", Val.vInt 60)])]
      "u" "侦查" (fun _ => 0) 0 _ _
      [("侦查", Val.vInt 60), ("基础总属性", Val.vInt 60)] rfl rfl rfl rfl).1⟩

/-! ## Lemmas for the dice-expression regex -/

theorem takeWhile_all (p : Char → Bool) (l : List Char) (h : ∀ c ∈ l, p c = true) :
    l.takeWhile p = l := by
  induction l with
  | nil => rfl
  | cons a t ih =>
    rw [List.takeWhile_cons, if_pos (h a (by simp)), ih (fun c hc => h c (by simp [hc]))]

theorem dropWhile_all (p : Char → Bool) (l : List Char) (h : ∀ c ∈ l, p c = true) :
    l.dropWhile p = [] := by
  induction l with
  | nil => rfl
  | cons a t ih =>
    rw [List.dropWhile_cons, if_pos (h a (by simp))]
    exact ih (fun c hc => h c (by simp [hc]))

theorem takeWhile_append_cons (p : Char → Bool) (cs : List Char) (b : Char) (t : List Char)
    (h : ∀ c ∈ cs, p c = true) (hb : p b = false) :
    (cs ++ b :: t).takeWhile p = cs := by
  induction cs with
  | nil => simp [List.takeWhile_cons, hb]
  | cons a l ih =>
    rw [List.cons_append, List.takeWhile_cons, if_pos (h a (by simp)),
        ih (fun c hc => h c (by simp [hc]))]

theorem dropWhile_append_cons (p : Char → Bool) (cs : List Char) (b : Char) (t : List Char)
    (h : ∀ c ∈ cs, p c = true) (hb : p b = false) :
    (cs ++ b :: t).dropWhile p = b :: t := by
  induction cs with
  | nil => simp [List.dropWhile_cons, hb]
  | cons a l ih =>
    rw [List.cons_append, List.dropWhile_cons, if_pos (h a (by simp))]
    exact ih (fun c hc => h c (by simp [hc]))

theorem dropWhile_eq_self_of_all_false (p : Char → Bool) (l : List Char)
    (h : ∀ c ∈ l, p c = false) : l.dropWhile p = l := by
  cases l with
  | nil => rfl
  | cons a t => rw [List.dropWhile_cons, if_neg (by rw [h a (by simp)]; simp)]

theorem pythonStrip_eq_self (l : List Char) (h : ∀ c ∈ l, isPySpace c = false) :
    pythonStrip l = l := by
  unfold pythonStrip
  rw [dropWhile_eq_self_of_all_false _ _ h,
      dropWhile_eq_self_of_all_false _ _ (fun c hc => h c (List.mem_reverse.mp hc)),
      List.reverse_reverse]

theorem digit_not_pySpace (c : Char) (h : c.isDigit = true) : isPySpace c = false := by
  have h1 : c ≠ ' ' := by rintro rfl; simp [Char.isDigit] at h
  have h2 : c ≠ '\t' := by rintro rfl; simp [Char.isDigit] at h
  have h3 : c ≠ '\n' := by rintro rfl; simp [Char.isDigit] at h
  have h4 : c ≠ '\r' := by rintro rfl; simp [Char.isDigit] at h
  simp [isPySpace, h1, h2, h3, h4]

/-- Evaluation of the dice regex on a modifier-free shape `NdM`. -/
theorem matchDiceRegex_no_mod (cs ds : List Char) (dc : Char)
    (hcs : ∀ c ∈ cs, c.isDigit = true) (hds : ∀ c ∈ ds, c.isDigit = true) (hds0 : ds ≠ [])
    (hdc : dc = 'd' ∨ dc = 'D') :
    matchDiceRegex (cs ++ dc :: ds) = some (cs, ds, none) := by
  have hdcd : dc.isDigit = false := by rcases hdc with rfl | rfl <;> rfl
  unfold matchDiceRegex
  rw [takeWhile_append_cons _ _ _ _ hcs hdcd, dropWhile_append_cons _ _ _ _ hcs hdcd]
  dsimp only
  rw [if_pos hdc, takeWhile_all _ _ hds, dropWhile_all _ _ hds]
  rw [if_neg hds0]

/-- Evaluation of the dice regex on a shape `NdM±K`. -/
theorem matchDiceRegex_mod (cs ds ms : List Char) (dc s : Char)
    (hcs : ∀ c ∈ cs, c.isDigit = true) (hds : ∀ c ∈ ds, c.isDigit = true) (hds0 : ds ≠ [])
    (hms : ∀ c ∈ ms, c.isDigit = true) (hms0 : ms ≠ []) (hdc : dc = 'd' ∨ dc = 'D')
    (hs : s = '+' ∨ s = '-') :
    matchDiceRegex (cs ++ dc :: (ds ++ s :: ms)) = some (cs, ds, some (s, ms)) := by
  have hdcd : dc.isDigit = false := by rcases hdc with rfl | rfl <;> rfl
  have hsd : s.isDigit = false := by rcases hs with rfl | rfl <;> rfl
  unfold matchDiceRegex
  rw [takeWhile_append_cons _ _ _ _ hcs hdcd, dropWhile_append_cons _ _ _ _ hcs hdcd]
  dsimp only
  rw [if_pos hdc, takeWhile_append_cons _ _ _ _ hds hsd, dropWhile_append_cons _ _ _ _ hds hsd]
  rw [if_neg hds0]
  dsimp only
  rw [if_pos hs, takeWhile_all _ _ hms, dropWhile_all _ _ hms]
  rw [if_neg (by simp [hms0])]

/-- C5: every string of the shape `[count]d<faces>[+|-modifier]` (`d`
case-insensitive, count defaulting to 1 when omitted, arbitrary digit
runs allowed) parses to exactly `(count, faces, modifier)` when count ∈
[1,100] and faces ∈ [1,1000]; a matching string with count or faces out
of range raises the corresponding range error (count checked first);
any string the regex does not match raises `InvalidExpression`. -/
theorem C5_parse_dice_expression (cs ds ms : List Char) (s : Char) (n m : Nat) (k : Int)
    (hcs : ∀ c ∈ cs, c.isDigit = true) (hds : ∀ c ∈ ds, c.isDigit = true) (hds0 : ds ≠ [])
    (hms : ∀ c ∈ ms, c.isDigit = true) (hms0 : ms ≠ []) (hsign : s = '+' ∨ s = '-')
    (hn : n = if cs = [] then 1 else digitsToNat cs) (hm : m = digitsToNat ds)
    (hk : k = if s = '-' then -(digitsToNat ms : Int) else (digitsToNat ms : Int)) :
    ((1 ≤ n → n ≤ 100 → 1 ≤ m → m ≤ 1000 →
        parse_dice_expression ⟨cs ++ 'd' :: ds⟩ = .ok (n, m, 0) ∧
        parse_dice_expression ⟨cs ++ 'D' :: ds⟩ = .ok (n, m, 0) ∧
        parse_dice_expression ⟨cs ++ 'd' :: (ds ++ s :: ms)⟩ = .ok (n, m, k)) ∧
     ((n = 0 ∨ n > 100) →
        parse_dice_expression ⟨cs ++ 'd' :: ds⟩ = .error .countOutOfRange) ∧
     (1 ≤ n → n ≤ 100 → (m = 0 ∨ m > 1000) →
        parse_dice_expression ⟨cs ++ 'd' :: ds⟩ = .error .facesOutOfRange)) ∧
    (∀ t : String, matchDiceRegex (pythonStrip t.data) = none →
       parse_dice_expression t = .error .invalidExpr) := by
  have hns : ∀ (dc : Char), dc = 'd' ∨ dc = 'D' →
      ∀ c ∈ cs ++ dc :: ds, isPySpace c = false := by
    intro dc hdc c hc
    rcases List.mem_append.mp hc with hc | hc
    · exact digit_not_pySpace _ (hcs c hc)
    · rcases List.mem_cons.mp hc with rfl | hc
      · rcases hdc with rfl | rfl <;> rfl
      · exact digit_not_pySpace _ (hds c hc)
  have hns2 : ∀ c ∈ cs ++ 'd' :: (ds ++ s :: ms), isPySpace c = false := by
    intro c hc
    rcases List.mem_append.mp hc with hc | hc
    · exact digit_not_pySpace _ (hcs c hc)
    · rcases List.mem_cons.mp hc with rfl | hc
      · rfl
      · rcases List.mem_append.mp hc with hc | hc
        · exact digit_not_pySpace _ (hds c hc)
        · rcases List.mem_cons.mp hc with rfl | hc
          · rcases hsign with rfl | rfl <;> rfl
          · exact digit_not_pySpace _ (hms c hc)
  have key : ∀ (dc : Char) (hdc : dc = 'd' ∨ dc = 'D'),
      parse_dice_expression ⟨cs ++ dc :: ds⟩ =
        (if n = 0 ∨ n > 100 then .error .countOutOfRange
         else if m = 0 ∨ m > 1000 then .error .facesOutOfRange
         else .ok (n, m, 0)) := by
    intro dc hdc
    unfold parse_dice_expression
    dsimp only
    rw [pythonStrip_eq_self _ (hns dc hdc), matchDiceRegex_no_mod _ _ _ hcs hds hds0 hdc]
    dsimp only
    rw [← hn, ← hm]
  have key2 : parse_dice_expression ⟨cs ++ 'd' :: (ds ++ s :: ms)⟩ =
      (if n = 0 ∨ n > 100 then .error .countOutOfRange
       else if m = 0 ∨ m > 1000 then .error .facesOutOfRange
       else .ok (n, m, k)) := by
    unfold parse_dice_expression
    dsimp only
    rw [pythonStrip_eq_self _ hns2,
        matchDiceRegex_mod _ _ _ _ _ hcs hds hds0 hms hms0 (Or.inl rfl) hsign]
    dsimp only
    rw [← hn, ← hm, ← hk]
  refine ⟨⟨?_, ?_, ?_⟩, ?_⟩
  · intro h1 h2 h3 h4
    refine ⟨?_, ?_, ?_⟩
    · rw [key 'd' (Or.inl rfl), if_neg (by omega), if_neg (by omega)]
    · rw [key 'D' (Or.inr rfl), if_neg (by omega), if_neg (by omega)]
    · rw [key2, if_neg (by omega), if_neg (by omega)]
  · intro h1
    rw [key 'd' (Or.inl rfl), if_pos h1]
  · intro h1 h2 h3
    rw [key 'd' (Or.inl rfl), if_neg (by omega), if_pos h3]
  · intro t ht
    unfold parse_dice_expression
    rw [ht]

/-- Witness for C5: `2d6+3` round-trips, `d100` defaults the count,
`0d6` is a count error, `1d0` a faces error, and `foo` is invalid. -/
theorem C5_parse_dice_expression_witness :
    parse_dice_expression "2d6+3" = .ok (2, 6, 3) ∧
    parse_dice_expression "d100" = .ok (1, 100, 0) ∧
    parse_dice_expression "0d6" = .error .countOutOfRange ∧
    parse_dice_expression "1d0" = .error .facesOutOfRange ∧
    parse_dice_expression "foo" = .error .invalidExpr :=
  ⟨((C5_parse_dice_expression ['2'] ['6'] ['3'] '+' 2 6 3 (by decide) (by decide) (by decide)
      (by decide) (by decide) (Or.inl rfl) (by decide) (by decide) (by decide)).1.1
      (by norm_num) (by norm_num) (by norm_num) (by norm_num)).2.2,
   ((C5_parse_dice_expression [] ['1', '0', '0'] ['1'] '+' 1 100 1 (by decide) (by decide)
      (by decide) (by decide) (by decide) (Or.inl rfl) (by decide) (by decide) (by decide)).1.1
      (by norm_num) (by norm_num) (by norm_num) (by norm_num)).1,
   (C5_parse_dice_expression ['0'] ['6'] ['1'] '+' 0 6 1 (by decide) (by decide) (by decide)
      (by decide) (by decide) (Or.inl rfl) (by decide) (by decide) (by decide)).1.2.1
      (Or.inl rfl),
   (C5_parse_dice_expression ['1'] ['0'] ['1'] '+' 1 0 1 (by decide) (by decide) (by decide)
      (by decide) (by decide) (Or.inl rfl) (by decide) (by decide) (by decide)).1.2.2
      (by norm_num) (by norm_num) (Or.inl rfl),
   (C5_parse_dice_expression ['2'] ['6'] ['1'] '+' 2 6 1 (by decide) (by decide) (by decide)
      (by decide) (by decide) (Or.inl rfl) (by decide) (by decide) (by decide)).2
      "foo" rfl⟩

/-- C3 counterexample: a custom skill stored at 200 (reachable — the
clamp on imports allows exactly 200).  Checking it by bare name gives the
effective threshold 200, which lies outside [0,199], yet the check does
not fail with `ThresholdOutOfRange`: it proceeds to roll the d100. -/
theorem C3_counterexample :
    checkExec (some [("侦查", Val.vInt 200)]) "侦查" 5 96 (fun _ => 0) 0 =
      .ok (200, 1, "✨ 大成功！") ∧ ¬ (0 ≤ (200 : Int) ∧ (200 : Int) ≤ 199) :=
  ⟨rfl, by norm_num⟩

/-- C3 (amended): the check fails with `ThresholdOutOfRange` exactly
when the effective threshold lies outside [0,199] in the literal-integer
path and in the name±modifier path; the bare attribute/skill-name path
instead validates the value against [0,200] (and integer-ness), failing
with the distinct `值异常` (value-abnormal) error and never with
`ThresholdOutOfRange` — so a stored value of exactly 200 passes and the
check rolls.  Threshold resolution precedes the roll: a resolution
error is returned as-is with no dice rolled, and the check branch never
mutates the record. -/
theorem C3_threshold_range_amended :
    (∀ (ex : Option Record) (fp : String), matchAttrMod fp.data = none → pyIsDigit fp = true →
       (resolveCheckThreshold ex fp = .error .thresholdOutOfRange ↔
          (digitsToNat fp.data : Int) > 199) ∧
       ((digitsToNat fp.data : Int) ≤ 199 →
          resolveCheckThreshold ex fp = .ok (digitsToNat fp.data))) ∧
    (∀ (rec : Record) (fp : String) (nm : List Char) (s : Char) (ds : List Char) (mval v : Int),
       matchAttrMod fp.data = some (nm, s, ds) →
       pyInt ⟨s :: ds⟩ = some mval →
       (get_single_skill_value (pyStrip ⟨nm⟩) rec).1 = true →
       (get_single_skill_value (pyStrip ⟨nm⟩) rec).2.2 = some (Val.vInt v) →
       (resolveCheckThreshold (some rec) fp = .error .thresholdOutOfRange ↔
          (v + mval < 0 ∨ v + mval > 199)) ∧
       (0 ≤ v + mval → v + mval ≤ 199 →
          resolveCheckThreshold (some rec) fp = .ok (v + mval))) ∧
    (∀ (rec : Record) (fp : String) (v : Int),
       matchAttrMod fp.data = none → pyIsDigit fp = false →
       (get_single_skill_value fp rec).1 = true →
       (get_single_skill_value fp rec).2.2 = some (Val.vInt v) →
       (resolveCheckThreshold (some rec) fp = .error .valueAbnormal ↔ (v < 0 ∨ v > 200)) ∧
       resolveCheckThreshold (some rec) fp ≠ .error .thresholdOutOfRange ∧
       (0 ≤ v → v ≤ 200 → resolveCheckThreshold (some rec) fp = .ok v)) ∧
    (∀ (ex : Option Record) (params : String) (st ft : Int) (g : Nat → Nat) (i : Nat) e,
       (split_check_params params).1 ≠ "" →
       resolveCheckThreshold ex (split_check_params params).1 = .error e →
       checkExec ex params st ft g i = .error e) ∧
    (∀ (ex : Option Record) (params : String) (st ft : Int) (g : Nat → Nat) (i : Nat) t,
       (split_check_params params).1 ≠ "" →
       resolveCheckThreshold ex (split_check_params params).1 = .ok t →
       checkExec ex params st ft g i =
         .ok (t, (roll_dice g i 1 100 0).2,
              checkJudge st ft t (roll_dice g i 1 100 0).2)) := by
  refine ⟨?_, ?_, ?_, ?_, ?_⟩
  · intro ex fp h1 h2
    have ht0 : (0 : Int) ≤ (digitsToNat fp.data : Int) := Int.natCast_nonneg _
    unfold resolveCheckThreshold
    rw [h1]
    dsimp only
    rw [if_pos h2]
    by_cases h : (digitsToNat fp.data : Int) > 199
    · rw [if_pos (Or.inr h)]
      exact ⟨by simp [h], fun h2 => absurd h (by omega)⟩
    · rw [if_neg (by omega)]
      exact ⟨by simp [h], fun _ => rfl⟩
  · intro rec fp nm s ds mval v h1 h2 h3 h4
    unfold resolveCheckThreshold
    rw [h1]
    dsimp only
    rw [h2]
    dsimp only
    rw [h3, Bool.not_true, if_neg Bool.false_ne_true, h4]
    dsimp only
    by_cases h : v + mval < 0 ∨ v + mval > 199
    · rw [if_pos h]
      exact ⟨by simp [h], fun ha hb => absurd h (by omega)⟩
    · rw [if_neg h]
      exact ⟨by simp [h], fun _ _ => rfl⟩
  · intro rec fp v h1 h2 h3 h4
    unfold resolveCheckThreshold
    rw [h1]
    dsimp only
    rw [if_neg (by rw [h2]; exact Bool.false_ne_true),
        h3, Bool.not_true, if_neg Bool.false_ne_true, h4]
    dsimp only
    by_cases h : v < 0 ∨ v > 200
    · rw [if_pos h]
      exact ⟨by simp [h], by simp, fun ha hb => absurd h (by omega)⟩
    · rw [if_neg h]
      exact ⟨by simp [h], by simp, fun _ _ => rfl⟩
  · intro ex params st ft g i e hne hres
    unfold checkExec
    dsimp only
    rw [if_neg hne, hres]
  · intro ex params st ft g i t hne hres
    unfold checkExec
    dsimp only
    rw [if_neg hne, hres]

/-- Witness for C3 (amended) at concrete inputs for all three threshold
paths and both checkExec outcomes. -/
theorem C3_threshold_range_amended_witness :
    resolveCheckThreshold none "70" = .ok 70 ∧
    resolveCheckThreshold (some [("STR", Val.vInt 80)]) "力量+10" = .ok 90 ∧
    resolveCheckThreshold (some [("侦查", Val.vInt 60)]) "侦查" = .ok 60 ∧
    checkExec none "300" 5 96 (fun _ => 0) 0 = .error .thresholdOutOfRange ∧
    checkExec (some [("STR", Val.vInt 80)]) "力量" 5 96 (fun _ => 0) 0 =
      .ok (80, 1, "✨ 大成功！") :=
  ⟨(C3_threshold_range_amended.1 none "70" rfl rfl).2 (by decide),
   (C3_threshold_range_amended.2.1 [("STR", Val.vInt 80)] "力量+10" ['力', '量'] '+'
      ['1', '0'] 10 80 rfl rfl rfl rfl).2 (by norm_num) (by norm_num),
   (C3_threshold_range_amended.2.2.1 [("侦查", Val.vInt 60)] "侦查" 60 rfl rfl rfl rfl).2.2
      (by norm_num) (by norm_num),
   C3_threshold_range_amended.2.2.2.1 none "300" 5 96 (fun _ => 0) 0
      .thresholdOutOfRange (by decide) rfl,
   C3_threshold_range_amended.2.2.2.2 (some [("STR", Val.vInt 80)]) "力量" 5 96
      (fun _ => 0) 0 80 (by decide) rfl⟩

end CocDice
